import Mathlib

/-!
Verification development for the job-dispatch-and-completion-barrier controller
of the Context-Aware-Cut-Selection repository.  The Python modules
`utilities.py`, `Slurm/generate_instance_subset.py` and `Slurm/solve_instance.py`
are shallowly embedded below: pure string manipulation is translated to
functions on `String`/`List Char`, filesystem-dependent code is translated to
functions over explicit filesystem views, and assertion-guarded code returns
`Except`.
-/

/-- Decidable equality for `Except`, used to evaluate the embedded fallible
functions on concrete inputs. -/
instance {ε α : Type} [DecidableEq ε] [DecidableEq α] : DecidableEq (Except ε α) := fun a b =>
  match a, b with
  | .error e, .error f =>
    match decEq e f with
    | isTrue h => isTrue (h ▸ rfl)
    | isFalse h => isFalse (fun hh => h (Except.error.inj hh))
  | .ok x, .ok y =>
    match decEq x y with
    | isTrue h => isTrue (h ▸ rfl)
    | isFalse h => isFalse (fun hh => h (Except.ok.inj hh))
  | .error _, .ok _ => isFalse (fun hh => Except.noConfusion hh)
  | .ok _, .error _ => isFalse (fun hh => Except.noConfusion hh)

/-! ## Python string primitives (structural, kernel-evaluable) -/

/-- Python single-character `s.split(sep)`: empty parts are preserved and the
result is always nonempty. -/
def splitChar (sep : Char) : List Char → List (List Char)
  | [] => [[]]
  | c :: cs =>
    match splitChar sep cs with
    | [] => [[]]
    | h :: t => if c = sep then [] :: h :: t else (c :: h) :: t

/-- Python `s.split(sub)[0]`: the part of `s` strictly before the first
occurrence of the (nonempty) separator `sub`. -/
def takeBeforeSub (sub : List Char) : List Char → List Char
  | [] => []
  | c :: cs => if sub.isPrefixOf (c :: cs) then [] else c :: takeBeforeSub sub cs

/-- Python substring containment `sub in s`. -/
def containsSub (sub : List Char) : List Char → Bool
  | [] => sub.isEmpty
  | c :: cs => sub.isPrefixOf (c :: cs) || containsSub sub cs

/-- Python `s.startswith(pre)`. -/
def pyStartsWith (s pre : String) : Bool := pre.data.isPrefixOf s.data

/-- Python `s.endswith(suf)`. -/
def pyEndsWith (s suf : String) : Bool := suf.data.isSuffixOf s.data

/-- `posixpath.dirname`: the head of the path up to the final separator, with
trailing separators stripped unless the head consists only of separators. -/
def dirname (p : String) : String :=
  let headRev := p.data.reverse.dropWhile (fun c => c ≠ '/')
  if headRev ≠ [] ∧ headRev.any (fun c => c ≠ '/') then
    String.mk ((headRev.dropWhile (fun c => c = '/')).reverse)
  else String.mk headRev.reverse

/-- `posixpath.join` for two components, as `os.path.join` is used in the
source (second component absolute wins; otherwise concatenate with a
separator unless one is already present). -/
def pathJoin (a b : String) : String :=
  if pyStartsWith b "/" then b
  else if a = "" ∨ pyEndsWith a "/" then a ++ b
  else a ++ "/" ++ b

/-- Accumulator loop for a decimal digit string. -/
def natDigitsAux : List Char → Nat → Option Nat
  | [], acc => some acc
  | c :: cs, acc => if c.isDigit then natDigitsAux cs (10 * acc + (c.toNat - 48)) else none

/-- Value of a decimal digit string: `some` exactly on nonempty all-digit input. -/
def natDigits : List Char → Option Nat
  | [] => none
  | cs => natDigitsAux cs 0

/-- Python `int()` restricted to an optionally signed decimal numeral (the only
shape the scheduler acknowledgment parser can meet). -/
def pyIntOfChars (cs : List Char) : Option Int :=
  match cs with
  | [] => none
  | c :: rest =>
    if c = '-' then (natDigits rest).map (fun n => -(Int.ofNat n))
    else if c = '+' then (natDigits rest).map (fun n => Int.ofNat n)
    else (natDigits (c :: rest)).map (fun n => Int.ofNat n)

/-! ## parameters.py -/

def SLURM_CONSTRAINT : String := "Xeon&Gold6342"

def SLURM_TRAIN_MEMORY : Option Int := some 2000

def SLURM_TEST_MEMORY : Int := 90000

def RANDOM_SEEDS : List Int := [1, 2, 3, 4, 5]

def PERMUTATION_SEEDS : List Int := [0]

def TRAINING_SET_TIME_LIMIT_WITHOUT_SOLUTION : Int := 120

def TRAINING_SET_TIME_LIMIT_WITH_SOLUTION : Int := 120

def TRAINING_SET_MIN_TIME_LIMIT : Rat := 5

def TRAINING_SET_PRESOLVE_TIME_LIMIT : Rat := 10

def TRAINING_SET_MIN_NODES : Int := 50

def TRAINING_SET_MAX_NODES : Int := 20000

/-! ## utilities.py -/

/-- The dependency id string of `run_python_slurm_job`:
`join(str(d) + colon for d in deps)[:-1]`. -/
def dependencyStr (deps : List Int) : String :=
  String.mk ((deps.map (fun d => (toString d).data ++ [':'])).flatten.dropLast)

/-- The full `sbatch` argument vector built by `run_python_slurm_job`
(utilities.py lines 157-205): `cmd_1 ++ cmd_2 ++ cmd_3 ++ arg_list`. -/
def slurmCmd (pythonFile jobName outfile : String) (timeLimit : Int)
    (argList : List String) (deps : List Int) (exclusive : Bool) : List String :=
  let cmd1 := ["sbatch", "--job-name=" ++ jobName, "--time=0-00:00:" ++ toString timeLimit,
               "--cpus-per-task=1"] ++ (if exclusive then ["--exclusive"] else ["--ntasks=1"])
  let cmd2m := if exclusive then ["--mem=" ++ toString SLURM_TEST_MEMORY]
    else match SLURM_TRAIN_MEMORY with
      | some m => ["--mem=" ++ toString m]
      | none => []
  let cmd2 := cmd2m ++
    (if deps.length > 0 then ["--dependency=afterany:" ++ dependencyStr deps] else [])
  let cmd3 := if exclusive then
      ["--constraint=" ++ SLURM_CONSTRAINT, "--output", outfile, "--error", outfile,
       "-A", "PUT EXCLUSIVE GROUP HERE", "--partition=PUT EXCLUSIVE PARTITION HERE", pythonFile]
    else
      ["--constraint=" ++ SLURM_CONSTRAINT, "--output", outfile, "--error", outfile,
       "-A", "PUT NON_EXCLUSIVE GROUP HERE", "--partition=PUT NON_EXCLUSIVE PARTITION HERE",
       pythonFile]
  cmd1 ++ cmd2 ++ cmd3 ++ argList

/-- View of the filesystem facts consulted by the submitter asserts. -/
structure FSView where
  isFile : String → Bool
  isDir : String → Bool

/-- The assertion failures of `run_python_slurm_job`, one per assert line. -/
inductive SubmissionError where
  | pythonFileAssert
  | outfileAssert
  | outdirAssert
  | timeLimitAssert
  deriving DecidableEq

/-- `run_python_slurm_job` up to the scheduler call: the asserts in source
order (utilities.py lines 144-152), then the emitted command.  The `Popen`
scheduler call consumes the `.ok` command; every `.error` aborts before it. -/
def run_python_slurm_job (fs : FSView) (pythonFile jobName outfile : String)
    (timeLimit : Int) (argList : List String) (dependencies : Option (List Int))
    (exclusive : Bool) : Except SubmissionError (List String) :=
  let deps := dependencies.getD []
  if ¬ (fs.isFile pythonFile = true ∧ pyEndsWith pythonFile ".py" = true) then
    .error .pythonFileAssert
  else if ¬ (fs.isFile outfile = false ∧ pyEndsWith outfile ".out" = true) then
    .error .outfileAssert
  else if ¬ (fs.isDir (dirname outfile) = true) then
    .error .outdirAssert
  else if ¬ (0 ≤ timeLimit ∧ timeLimit ≤ 100000000) then
    .error .timeLimitAssert
  else
    .ok (slurmCmd pythonFile jobName outfile timeLimit argList deps exclusive)

/-- `utilities.get_filename` (the `instance` parameter is renamed `inst`, the
Python name being a Lean keyword). -/
def get_filename (parentDir inst : String) (randSeed permutationSeed : Option Int)
    (ext : Option String) : String :=
  let base := inst
  let base := base ++ (match randSeed with | some r => "__seed__" ++ toString r | none => "")
  let base := base ++
    (match permutationSeed with | some p => "__permute__" ++ toString p | none => "")
  let base := match ext with | some e => base ++ "." ++ e | none => base
  pathJoin parentDir base

/-- `utilities.str_to_bool`: `word.lower() in ["yes", "true", "t", "1"]`. -/
def str_to_bool (word : String) : Bool :=
  ["yes", "true", "t", "1"].contains (String.mk (word.data.map Char.toLower))

/-- State of one directory for the hygiene step: the directory node itself and
its regular-file entries. -/
structure TempDir where
  dirExists : Bool
  entries : List String

/-- `utilities.remove_temp_files`: `os.remove` each entry of `os.listdir`;
the directory node is never touched (no `rmdir`/`rmtree` call). -/
def remove_temp_files (d : TempDir) : TempDir :=
  { d with entries := d.entries.foldl List.erase d.entries }

/-- The quote character, written by code point to keep it out of string
literals. -/
def quoteChar : Char := Char.ofNat 39

/-- `job_line = str(line.rstrip())` where `line` iterates the raw stdout bytes:
Python renders the bytes object as its b-quoted repr (plain ASCII assumed). -/
def job_line_of (raw : String) : String :=
  "b" ++ String.mk [quoteChar] ++ raw ++ String.mk [quoteChar]

/-- Failures of the acknowledgment parse: the assert on the token, and the
`int()` conversion error. -/
inductive AckError where
  | ackAssertFailed
  | valueError
  deriving DecidableEq

def submittedToken : List Char := "Submitted batch job".data

/-- Scheduler-acknowledgment parsing of `run_python_slurm_job`
(utilities.py lines 212-217): assert the token is in the first line, then
`int(job_line.split(space)[-1].split(quote)[0])`. -/
def parse_job_ack (raw : String) : Except AckError Int :=
  let jobLine := job_line_of raw
  if containsSub submittedToken jobLine.data then
    match pyIntOfChars
        ((splitChar quoteChar ((splitChar ' ' jobLine.data).getLastD [])).headD []) with
    | some k => .ok k
    | none => .error .valueError
  else .error .ackAssertFailed

/-! ## Slurm/generate_instance_subset.py -/

/-- The result-record fields consulted by the phase filter (the remaining
fields of the yml record never influence filtering). -/
structure ResultRecord where
  status : String
  num_nodes : Int
  solve_time : Rat
  presolve_time : Rat
  deriving DecidableEq

/-- The acceptance predicate of `filter_instances`
(generate_instance_subset.py lines 78-82): nested threshold checks. -/
def recordPasses (d : ResultRecord) : Bool :=
  if d.status = "optimal" then
    if TRAINING_SET_MIN_NODES ≤ d.num_nodes ∧ d.num_nodes ≤ TRAINING_SET_MAX_NODES then
      if TRAINING_SET_MIN_TIME_LIMIT ≤ d.solve_time then
        if d.presolve_time ≤ TRAINING_SET_PRESOLVE_TIME_LIMIT then true else false
      else false
    else false
  else false

/-- `instances[i]` derivation of `filter_instances`:
`instance_path.split(slash)[-1].split(".mps")[0]`. -/
def instanceOf (instancePath : String) : String :=
  String.mk (takeBeforeSub ".mps".data ((splitChar '/' instancePath.data).getLastD []))

/-- Collection-and-filter step of `filter_instances` (lines 70-92): for each
candidate look up its yml record at the deterministic key (seed 0,
permutation 0); a missing record skips the candidate (`continue`), a present
record is kept iff `recordPasses`.  The survivors are returned in submission
order. -/
def filterSurvivors (fs : String → Option ResultRecord) (resultsDir : String)
    (instancePaths : List String) : List String :=
  instancePaths.filter (fun path =>
    match fs (get_filename resultsDir (instanceOf path) (some 0) (some 0) (some "yml")) with
    | none => false
    | some d => recordPasses d)

/-- The submission request data handed to `run_python_slurm_job`. -/
structure SlurmJobRequest where
  pythonFile : String
  jobName : String
  outfile : String
  timeLimit : Int
  argList : List String
  dependencies : Option (List Int)
  deriving DecidableEq

/-- The sentinel marker file polled by `wait_for_jobs_to_finish`:
`os.path.join(outfiles_dir, "safety_check") + ".txt"`. -/
def markerPath (outfilesDir : String) : String :=
  pathJoin outfilesDir "safety_check" ++ ".txt"

/-- The single sentinel submission of `wait_for_jobs_to_finish`
(generate_instance_subset.py lines 107-113). -/
def sentinelRequest (slurmJobIds : List Int) (outfilesDir : String) : SlurmJobRequest :=
  let safetyFileNoExt := pathJoin outfilesDir "safety_check"
  { pythonFile := "Slurm/safety_check.py"
    jobName := "cleaner"
    outfile := safetyFileNoExt ++ ".out"
    timeLimit := 10
    argList := [safetyFileNoExt ++ ".txt"]
    dependencies := some slurmJobIds }

/-- Every submission performed by one call of `wait_for_jobs_to_finish`: the
body contains exactly one `run_python_slurm_job` call, for the sentinel. -/
def wait_for_jobs_to_finish_requests (slurmJobIds : List Int) (outfilesDir : String) :
    List SlurmJobRequest :=
  [sentinelRequest slurmJobIds outfilesDir]

/-- The poll loop of `wait_for_jobs_to_finish` (lines 114-117).  `markerAt k`
says whether the marker file exists at the k-th `os.path.isfile` check; the
loop sleeps 5 seconds before every check.  `fuel` bounds the observation only:
the loop itself has no bound, which surfaces as `none` for every fuel when the
marker never appears.  On exit it reports the check index and the elapsed
seconds spent sleeping. -/
def pollForMarker (markerAt : Nat → Bool) : Nat → Nat → Nat → Option (Nat × Nat)
  | 0, _, _ => none
  | fuel + 1, k, elapsed =>
    if markerAt k then some (k, elapsed) else pollForMarker markerAt fuel (k + 1) (elapsed + 5)

/-- The barrier wait: `time.sleep(5)` then the check loop, so the first check
happens at 5 elapsed seconds. -/
def barrierPoll (markerAt : Nat → Bool) (fuel : Nat) : Option (Nat × Nat) :=
  pollForMarker markerAt fuel 0 5

/-! ## Slurm/solve_instance.py -/

/-- Filesystem as path-to-content map, for the record-writing worker. -/
structure FileSys where
  contents : String → Option String

def FileSys.isFile (fs : FileSys) (p : String) : Bool := (fs.contents p).isSome

def FileSys.write (fs : FileSys) (p v : String) : FileSys :=
  ⟨fun q => if q = p then some v else fs.contents q⟩

def FileSys.removeFile (fs : FileSys) (p : String) : FileSys :=
  ⟨fun q => if q = p then none else fs.contents q⟩

/-- The one assertion failure of `solve_model_and_extract_solve_info`. -/
inductive SolveError where
  | statFileExists
  deriving DecidableEq

/-- File behavior of `solve_model_and_extract_solve_info`
(solve_instance.py lines 111-184): assert the `.stats` scratch file is absent,
write it, remove it again unless `print_stats`, then write the `.yml` record
with no pre-existence check.  `statsContent`/`ymlContent` abstract the solver
payload (the numeric solve data), which filtering claims never inspect. -/
def solve_model_and_extract_solve_info (fs : FileSys) (randSeed permutationSeed : Int)
    (inst resultsDir : String) (printStats : Bool) (statsContent ymlContent : String) :
    Except SolveError FileSys :=
  let statFile := get_filename resultsDir inst (some randSeed) (some permutationSeed)
    (some "stats")
  if fs.isFile statFile then .error .statFileExists
  else
    let fs1 := fs.write statFile statsContent
    let fs2 := if printStats then fs1 else fs1.removeFile statFile
    let ymlFile := get_filename resultsDir inst (some randSeed) (some permutationSeed)
      (some "yml")
    .ok (fs2.write ymlFile ymlContent)

/-! ## Helper lemmas -/

theorem diff_self_nil {α : Type} [DecidableEq α] (l : List α) : l.diff l = [] := by
  induction l with
  | nil => rfl
  | cons a t ih => rw [List.diff_cons, List.erase_cons_head]; exact ih

theorem foldl_erase_self {α : Type} [DecidableEq α] (l : List α) :
    l.foldl List.erase l = [] := by
  rw [← List.diff_eq_foldl]; exact diff_self_nil l

/-! ## C9: hygiene-step idempotence -/

/-- C9: `remove_temp_files` empties the directory entry list, is idempotent
(a second run succeeds and leaves the same empty state), and never removes
the directory node itself. -/
theorem remove_temp_files_spec (d : TempDir) :
    (remove_temp_files d).entries = [] ∧
    remove_temp_files (remove_temp_files d) = remove_temp_files d ∧
    (remove_temp_files d).dirExists = d.dirExists := by
  have h : remove_temp_files d = ⟨d.dirExists, []⟩ := by
    unfold remove_temp_files
    rw [foldl_erase_self]
  rw [h]
  exact ⟨rfl, rfl, rfl⟩

/-! ## C10: str_to_bool -/

/-- C10: `str_to_bool` returns true exactly when the lowercased string is one
of yes / true / t / 1; in particular "False", "no" and unrecognized strings
yield false (the function is total, never raising). -/
theorem str_to_bool_spec :
    (∀ word : String, str_to_bool word = true ↔
      (String.mk (word.data.map Char.toLower) = "yes" ∨
       String.mk (word.data.map Char.toLower) = "true" ∨
       String.mk (word.data.map Char.toLower) = "t" ∨
       String.mk (word.data.map Char.toLower) = "1")) ∧
    str_to_bool "False" = false ∧ str_to_bool "no" = false ∧
    str_to_bool "anything else" = false ∧ str_to_bool "TRUE" = true := by
  refine ⟨fun word => ?_, by decide, by decide, by decide, by decide⟩
  rw [str_to_bool, List.elem_iff]
  simp [List.mem_cons, eq_comm]

/-! ## C7: the filter step is pure and order-preserving -/

/-- C7: the filter step is a pure deterministic function of the records (two
runs over pointwise-identical record stores give identical survivor lists),
the survivors are a subsequence of the input (order preserved), and the
survivor list is never longer than the input. -/
theorem filterSurvivors_pure (fs fs2 : String → Option ResultRecord) (resultsDir : String)
    (instancePaths : List String) (hsame : ∀ p, fs p = fs2 p) :
    filterSurvivors fs resultsDir instancePaths = filterSurvivors fs2 resultsDir instancePaths ∧
    List.Sublist (filterSurvivors fs resultsDir instancePaths) instancePaths ∧
    (filterSurvivors fs resultsDir instancePaths).length ≤ instancePaths.length := by
  have hfs : fs = fs2 := funext hsame
  subst hfs
  exact ⟨rfl, List.filter_sublist _, (List.filter_sublist _).length_le⟩

theorem filterSurvivors_pure_witness :
    filterSurvivors (fun _ => some ⟨"optimal", 100, 10, 2⟩) "R" ["I/a.mps"] =
      filterSurvivors (fun _ => some ⟨"optimal", 100, 10, 2⟩) "R" ["I/a.mps"] ∧
    List.Sublist (filterSurvivors (fun _ => some ⟨"optimal", 100, 10, 2⟩) "R" ["I/a.mps"])
      ["I/a.mps"] ∧
    (filterSurvivors (fun _ => some ⟨"optimal", 100, 10, 2⟩) "R" ["I/a.mps"]).length ≤
      ["I/a.mps"].length :=
  filterSurvivors_pure (fun _ => some ⟨"optimal", 100, 10, 2⟩)
    (fun _ => some ⟨"optimal", 100, 10, 2⟩) "R" ["I/a.mps"] (fun _ => rfl)

/-! ## C6: missing records are skipped silently -/

/-- C6: a candidate whose result record is absent at collection time is
excluded from the survivors; the embedding is a total function (the source
path is a plain `continue`), so no error propagates. -/
theorem filterSurvivors_missing_record (fs : String → Option ResultRecord)
    (resultsDir : String) (instancePaths : List String) (path : String)
    (habs : fs (get_filename resultsDir (instanceOf path) (some 0) (some 0) (some "yml"))
      = none) :
    path ∉ filterSurvivors fs resultsDir instancePaths := by
  intro hmem
  have hp := List.of_mem_filter hmem
  rw [habs] at hp
  simp at hp

theorem filterSurvivors_missing_record_witness :
    "I/b.mps" ∉ filterSurvivors
      (fun p => if p = "R/a__seed__0__permute__0.yml" then some ⟨"optimal", 100, 10, 2⟩
        else none) "R" ["I/a.mps", "I/b.mps"] :=
  filterSurvivors_missing_record
    (fun p => if p = "R/a__seed__0__permute__0.yml" then some ⟨"optimal", 100, 10, 2⟩
      else none) "R" ["I/a.mps", "I/b.mps"] "I/b.mps" (by decide)

/-! ## C2: submitter guards fire before the scheduler call -/

/-- C2: each of the four submission guards forces an error result, so the
scheduler command (the `.ok` payload consumed by `Popen`) is never produced:
an already-existing output file, a target that is not an existing `.py` file,
a missing output directory, or a time limit outside `[0, 1e8]`. -/
theorem run_python_slurm_job_guards (fs : FSView) (pythonFile jobName outfile : String)
    (timeLimit : Int) (argList : List String) (dependencies : Option (List Int))
    (exclusive : Bool) :
    (fs.isFile outfile = true →
      (run_python_slurm_job fs pythonFile jobName outfile timeLimit argList dependencies
        exclusive).isOk = false) ∧
    (¬ (fs.isFile pythonFile = true ∧ pyEndsWith pythonFile ".py" = true) →
      (run_python_slurm_job fs pythonFile jobName outfile timeLimit argList dependencies
        exclusive).isOk = false) ∧
    (fs.isDir (dirname outfile) = false →
      (run_python_slurm_job fs pythonFile jobName outfile timeLimit argList dependencies
        exclusive).isOk = false) ∧
    (¬ (0 ≤ timeLimit ∧ timeLimit ≤ 100000000) →
      (run_python_slurm_job fs pythonFile jobName outfile timeLimit argList dependencies
        exclusive).isOk = false) := by
  refine ⟨?_, ?_, ?_, ?_⟩ <;> intro h <;> unfold run_python_slurm_job <;>
    (repeat' split) <;> first | rfl | simp_all

theorem run_python_slurm_job_guards_witness :
    (run_python_slurm_job ⟨fun _ => true, fun _ => true⟩ "a.py" "j" "o/x.out" 10 [] none
      false).isOk = false ∧
    (run_python_slurm_job ⟨fun p => p = "o/x.out", fun _ => true⟩ "a.txt" "j" "o/x.out" 10 []
      none false).isOk = false ∧
    (run_python_slurm_job ⟨fun p => p = "a.py", fun _ => false⟩ "a.py" "j" "o/x.out" 10 []
      none false).isOk = false ∧
    (run_python_slurm_job ⟨fun p => p = "a.py", fun _ => true⟩ "a.py" "j" "o/x.out" (-3) []
      none false).isOk = false :=
  ⟨(run_python_slurm_job_guards ⟨fun _ => true, fun _ => true⟩ "a.py" "j" "o/x.out" 10 []
      none false).1 (by decide),
   (run_python_slurm_job_guards ⟨fun p => p = "o/x.out", fun _ => true⟩ "a.txt" "j" "o/x.out"
      10 [] none false).2.1 (by decide),
   (run_python_slurm_job_guards ⟨fun p => p = "a.py", fun _ => false⟩ "a.py" "j" "o/x.out"
      10 [] none false).2.2.1 (by decide),
   (run_python_slurm_job_guards ⟨fun p => p = "a.py", fun _ => true⟩ "a.py" "j" "o/x.out"
      (-3) [] none false).2.2.2 (by decide)⟩

/-! ## C3: record-file collision handling (corrected)

The pre-existence assert of `solve_model_and_extract_solve_info` guards the
`.stats` scratch file (solve_instance.py line 159), not the `.yml` result
record: the yml write at lines 180-182 has no guard and silently overwrites. -/

/-- A results directory already holding a record at the collision key. -/
def collidingFS : FileSys :=
  ⟨fun q => if q = "results/inst__seed__0__permute__0.yml" then some "old" else none⟩

/-- C3 counterexample: with a result record already present at the target key
(and no stats file), the worker raises no error and the record is silently
overwritten, contradicting the claim that a record-file collision raises. -/
theorem record_collision_counterexample :
    collidingFS.contents "results/inst__seed__0__permute__0.yml" = some "old" ∧
    (match solve_model_and_extract_solve_info collidingFS 0 0 "inst" "results" false "S" "new"
      with
     | .ok fsOut => fsOut.contents "results/inst__seed__0__permute__0.yml"
     | .error _ => none) = some "new" := by decide

/-- C3 amended: before writing the intermediate `.stats` file the worker
asserts no file exists at that path (a stats-path collision raises); the
`.yml` result record is written without any pre-existence check, so on
success it always carries the fresh content, silently overwriting any
previous record at the same key. -/
theorem solve_info_write_guards (fs : FileSys) (randSeed permutationSeed : Int)
    (inst resultsDir : String) (printStats : Bool) (statsContent ymlContent : String) :
    (fs.isFile (get_filename resultsDir inst (some randSeed) (some permutationSeed)
        (some "stats")) = true →
      solve_model_and_extract_solve_info fs randSeed permutationSeed inst resultsDir
        printStats statsContent ymlContent = .error .statFileExists) ∧
    (fs.isFile (get_filename resultsDir inst (some randSeed) (some permutationSeed)
        (some "stats")) = false →
      (match solve_model_and_extract_solve_info fs randSeed permutationSeed inst resultsDir
          printStats statsContent ymlContent with
       | .ok fsOut => fsOut.contents (get_filename resultsDir inst (some randSeed)
           (some permutationSeed) (some "yml"))
       | .error _ => none) = some ymlContent) := by
  unfold solve_model_and_extract_solve_info
  constructor
  · intro h
    simp [h]
  · intro h
    simp [h, FileSys.write]

theorem solve_info_write_guards_witness :
    solve_model_and_extract_solve_info
      ⟨fun q => if q = "results/inst__seed__0__permute__0.stats" then some "S" else none⟩
      0 0 "inst" "results" false "S" "new" = .error .statFileExists ∧
    (match solve_model_and_extract_solve_info ⟨fun _ => none⟩ 0 0 "inst" "results" false
        "S" "new" with
     | .ok fsOut => fsOut.contents "results/inst__seed__0__permute__0.yml"
     | .error _ => none) = some "new" :=
  ⟨(solve_info_write_guards
      ⟨fun q => if q = "results/inst__seed__0__permute__0.stats" then some "S" else none⟩
      0 0 "inst" "results" false "S" "new").1 (by decide),
   (solve_info_write_guards ⟨fun _ => none⟩ 0 0 "inst" "results" false "S" "new").2
      (by decide)⟩

/-! ## C5: the 3-of-5 scenario (corrected)

The phase filter also requires `presolve_time <= TRAINING_SET_PRESOLVE_TIME_LIMIT`
(generate_instance_subset.py line 81), which the claimed scenario omits. -/

def scenarioPaths : List String :=
  ["I/a.mps", "I/b.mps", "I/c.mps", "I/d.mps", "I/e.mps"]

/-- Records for the C5 counterexample: a, b, c all satisfy every condition the
claim lists (status optimal, num_nodes in [50, 20000], solve_time >= 5) but c
has presolve_time 20; d and e hit the time limit. -/
def cexRecords : String → Option ResultRecord := fun p =>
  if p = "R/a__seed__0__permute__0.yml" then some ⟨"optimal", 100, 10, 2⟩
  else if p = "R/b__seed__0__permute__0.yml" then some ⟨"optimal", 200, 30, 3⟩
  else if p = "R/c__seed__0__permute__0.yml" then some ⟨"optimal", 300, 40, 20⟩
  else if p = "R/d__seed__0__permute__0.yml" then some ⟨"timelimit", 9999, 120, 2⟩
  else if p = "R/e__seed__0__permute__0.yml" then some ⟨"timelimit", 9999, 120, 2⟩
  else none

/-- C5 counterexample: in a 5-candidate scenario satisfying every premise the
claim states (three records optimal with num_nodes in [50, 20000] and
solve_time >= 5, two records timelimit), the survivors are only the first two
candidates, not all three, because the filter also bounds presolve_time. -/
theorem scenario_counterexample :
    (cexRecords "R/c__seed__0__permute__0.yml" = some ⟨"optimal", 300, 40, 20⟩ ∧
      TRAINING_SET_MIN_NODES ≤ 300 ∧ (300 : Int) ≤ TRAINING_SET_MAX_NODES ∧
      TRAINING_SET_MIN_TIME_LIMIT ≤ 40) ∧
    filterSurvivors cexRecords "R" scenarioPaths = ["I/a.mps", "I/b.mps"] := by decide

/-- C5 amended: with the extra filter condition made explicit — the three
optimal records must also have presolve_time at most
TRAINING_SET_PRESOLVE_TIME_LIMIT (10) — the phase filter yields exactly those
three candidates, in original submission order. -/
theorem scenario_amended (n1 n2 n3 : Int) (t1 t2 t3 p1 p2 p3 : Rat) (r4 r5 : ResultRecord)
    (hn1 : TRAINING_SET_MIN_NODES ≤ n1 ∧ n1 ≤ TRAINING_SET_MAX_NODES)
    (hn2 : TRAINING_SET_MIN_NODES ≤ n2 ∧ n2 ≤ TRAINING_SET_MAX_NODES)
    (hn3 : TRAINING_SET_MIN_NODES ≤ n3 ∧ n3 ≤ TRAINING_SET_MAX_NODES)
    (ht1 : TRAINING_SET_MIN_TIME_LIMIT ≤ t1) (ht2 : TRAINING_SET_MIN_TIME_LIMIT ≤ t2)
    (ht3 : TRAINING_SET_MIN_TIME_LIMIT ≤ t3)
    (hp1 : p1 ≤ TRAINING_SET_PRESOLVE_TIME_LIMIT)
    (hp2 : p2 ≤ TRAINING_SET_PRESOLVE_TIME_LIMIT)
    (hp3 : p3 ≤ TRAINING_SET_PRESOLVE_TIME_LIMIT)
    (h4 : r4.status = "timelimit") (h5 : r5.status = "timelimit") :
    filterSurvivors (fun p =>
      if p = "R/a__seed__0__permute__0.yml" then some ⟨"optimal", n1, t1, p1⟩
      else if p = "R/b__seed__0__permute__0.yml" then some ⟨"optimal", n2, t2, p2⟩
      else if p = "R/c__seed__0__permute__0.yml" then some ⟨"optimal", n3, t3, p3⟩
      else if p = "R/d__seed__0__permute__0.yml" then some r4
      else if p = "R/e__seed__0__permute__0.yml" then some r5
      else none) "R" scenarioPaths = ["I/a.mps", "I/b.mps", "I/c.mps"] := by
  have hstat : ("timelimit" : String) ≠ "optimal" := by decide
  simp +decide [filterSurvivors, scenarioPaths, List.filter, recordPasses,
    hn1.1, hn1.2, hn2.1, hn2.2, hn3.1, hn3.2, ht1, ht2, ht3, hp1, hp2, hp3, h4, h5, hstat]

theorem scenario_amended_witness :
    filterSurvivors (fun p =>
      if p = "R/a__seed__0__permute__0.yml" then some ⟨"optimal", 100, 10, 2⟩
      else if p = "R/b__seed__0__permute__0.yml" then some ⟨"optimal", 200, 30, 3⟩
      else if p = "R/c__seed__0__permute__0.yml" then some ⟨"optimal", 300, 40, 9⟩
      else if p = "R/d__seed__0__permute__0.yml" then some ⟨"timelimit", 9999, 120, 2⟩
      else if p = "R/e__seed__0__permute__0.yml" then some ⟨"timelimit", 9999, 120, 2⟩
      else none) "R" scenarioPaths = ["I/a.mps", "I/b.mps", "I/c.mps"] :=
  scenario_amended 100 200 300 10 30 40 2 3 9 ⟨"timelimit", 9999, 120, 2⟩
    ⟨"timelimit", 9999, 120, 2⟩ (by decide) (by decide) (by decide) (by decide) (by decide)
    (by decide) (by decide) (by decide) (by decide) (by decide) (by decide)

/-! ## C1: the completion barrier -/

theorem pollForMarker_some (markerAt : Nat → Bool) :
    ∀ fuel k elapsed n t, pollForMarker markerAt fuel k elapsed = some (n, t) →
      k ≤ n ∧ markerAt n = true ∧ (∀ m, k ≤ m → m < n → markerAt m = false) ∧
      t = elapsed + 5 * (n - k) := by
  intro fuel
  induction fuel with
  | zero => intro k elapsed n t h; exact absurd h (by simp [pollForMarker])
  | succ fuel ih =>
    intro k elapsed n t h
    rw [pollForMarker] at h
    by_cases hm : markerAt k = true
    · rw [hm] at h
      simp at h
      obtain ⟨hn, ht⟩ := h
      subst hn; subst ht
      exact ⟨Nat.le_refl _, hm, fun m h1 h2 => absurd (Nat.lt_of_le_of_lt h1 h2)
        (Nat.lt_irrefl _), by omega⟩
    · rw [Bool.not_eq_true] at hm
      rw [hm] at h
      simp at h
      obtain ⟨h1, h2, h3, h4⟩ := ih (k + 1) (elapsed + 5) n t h
      refine ⟨by omega, h2, fun m hm1 hm2 => ?_, by omega⟩
      rcases Nat.eq_or_lt_of_le hm1 with heq | hlt
      · rw [← heq]; exact hm
      · exact h3 m hlt hm2

theorem pollForMarker_none (markerAt : Nat → Bool) (h : ∀ k, markerAt k = false) :
    ∀ fuel k elapsed, pollForMarker markerAt fuel k elapsed = none := by
  intro fuel
  induction fuel with
  | zero => intro k elapsed; rfl
  | succ fuel ih => intro k elapsed; rw [pollForMarker, h k]; simpa using ih (k + 1) (elapsed + 5)

theorem pollForMarker_reach (j : Nat) :
    ∀ r elapsed, pollForMarker (fun i => decide (r + j ≤ i)) (j + 1) r elapsed
      = some (r + j, elapsed + 5 * j) := by
  induction j with
  | zero => intro r e; simp [pollForMarker]
  | succ j ih =>
    intro r e
    rw [pollForMarker]
    have hc : decide (r + (j + 1) ≤ r) = false := by simp
    rw [hc]
    simp only [Bool.false_eq_true, if_false]
    have hfun : (fun i => decide (r + (j + 1) ≤ i)) = (fun i => decide ((r + 1) + j ≤ i)) := by
      have h3 : r + (j + 1) = (r + 1) + j := by omega
      funext i; rw [h3]
    rw [hfun, ih (r + 1) (e + 5)]
    have h1 : (r + 1) + j = r + (j + 1) := by omega
    have h2 : e + 5 + 5 * j = e + 5 * (j + 1) := by omega
    rw [h1, h2]

/-- C1: `wait_for_jobs_to_finish` submits exactly one sentinel work item whose
dependency list is the full submitted handle list and whose argument names the
marker file `safety_check.txt` in the poll directory; the poll loop only
returns at a check where the marker exists (never before), each check happens
5 seconds after the previous sleep (check n at elapsed 5 * (n + 1) seconds),
the wait never returns if the marker never appears (for any fuel), and no
bound exists on the number of polls: every poll count is reached by some
marker trace. -/
theorem wait_for_jobs_barrier_spec (slurmJobIds : List Int) (outfilesDir : String)
    (markerAt : Nat → Bool) (fuel n t : Nat) :
    (wait_for_jobs_to_finish_requests slurmJobIds outfilesDir).length = 1 ∧
    (sentinelRequest slurmJobIds outfilesDir).dependencies = some slurmJobIds ∧
    (sentinelRequest slurmJobIds outfilesDir).argList = [markerPath outfilesDir] ∧
    (barrierPoll markerAt fuel = some (n, t) →
      markerAt n = true ∧ (∀ m, m < n → markerAt m = false) ∧ t = 5 * (n + 1)) ∧
    ((∀ k, markerAt k = false) → barrierPoll markerAt fuel = none) ∧
    (∀ j, barrierPoll (fun i => decide (j ≤ i)) (j + 1) = some (j, 5 * (j + 1))) := by
  refine ⟨rfl, rfl, rfl, ?_, ?_, ?_⟩
  · intro h
    obtain ⟨h1, h2, h3, h4⟩ := pollForMarker_some markerAt fuel 0 5 n t h
    exact ⟨h2, fun m hm => h3 m (Nat.zero_le m) hm, by omega⟩
  · intro h
    exact pollForMarker_none markerAt h fuel 0 5
  · intro j
    have hfun : (fun i => decide (j ≤ i)) = (fun i => decide (0 + j ≤ i)) := by
      funext i; rw [Nat.zero_add]
    rw [barrierPoll, hfun, pollForMarker_reach j 0 5]
    have h1 : 0 + j = j := by omega
    have h2 : 5 + 5 * j = 5 * (j + 1) := by omega
    rw [h1, h2]

theorem wait_for_jobs_barrier_spec_witness :
    (wait_for_jobs_to_finish_requests [3, 4] "outfiles").length = 1 ∧
    (sentinelRequest [3, 4] "outfiles").dependencies = some [3, 4] ∧
    (sentinelRequest [3, 4] "outfiles").argList = [markerPath "outfiles"] ∧
    ((fun k => decide (2 ≤ k)) 2 = true ∧ 15 = 5 * (2 + 1)) ∧
    barrierPoll (fun _ => false) 7 = none := by
  have h := wait_for_jobs_barrier_spec [3, 4] "outfiles" (fun k => decide (2 ≤ k)) 10 2 15
  have h2 := wait_for_jobs_barrier_spec [3, 4] "outfiles" (fun _ => false) 7 0 0
  have hp := h.2.2.2.1 (by decide)
  exact ⟨h.1, h.2.1, h.2.2.1, ⟨hp.1, hp.2.2⟩, h2.2.2.2.2.1 (fun _ => rfl)⟩

/-! ## C4: the dependency clause -/

def depToken : List Char := "--dependency".data

/-- Spec-side form of a dependency id list: the ids, colon-separated. -/
def colonSeparated : List (List Char) → List Char
  | [] => []
  | [x] => x
  | x :: y :: t => x ++ ':' :: colonSeparated (y :: t)

theorem dependencyStr_colon (deps : List Int) :
    (dependencyStr deps).data = colonSeparated (deps.map (fun d => (toString d).data)) := by
  induction deps with
  | nil => rfl
  | cons d t ih =>
    cases t with
    | nil => simp [dependencyStr, colonSeparated, List.dropLast_concat]
    | cons e t2 =>
      have hne : (((e :: t2).map (fun x => (toString x).data ++ [':'])).flatten) ≠ [] := by
        simp
      show (((d :: e :: t2).map (fun x => (toString x).data ++ [':'])).flatten).dropLast = _
      rw [List.map_cons]
      show (((toString d).data ++ [':']) ++
        (((e :: t2).map (fun x => (toString x).data ++ [':'])).flatten)).dropLast = _
      rw [List.dropLast_append_of_ne_nil _ hne]
      have ihx : ((((e :: t2).map (fun x => (toString x).data ++ [':'])).flatten)).dropLast
          = colonSeparated ((e :: t2).map (fun x => (toString x).data)) := ih
      rw [ihx]
      simp [colonSeparated]

theorem take_pre (n : Nat) (l : List Char) : l.take n <+: l :=
  ⟨l.drop n, List.take_append_drop n l⟩

theorem prefix_of_append_left {l a x : List Char} (h : l <+: a ++ x)
    (hl : l.length ≤ a.length) : l <+: a := by
  obtain ⟨t, ht⟩ := h
  have h2 : (a ++ x).take l.length = l := by rw [← ht]; exact List.take_left l t
  rw [List.take_append_of_le_length hl] at h2
  rw [← h2]
  exact take_pre _ _

theorem not_dep_concat (a x : String) (h3 : ¬ (depToken.take 3 <+: a.data))
    (hlen : 3 ≤ a.data.length) : ¬ (depToken <+: (a ++ x).data) := by
  intro h
  have hd : (a ++ x).data = a.data ++ x.data := rfl
  rw [hd] at h
  have h4 : depToken.take 3 <+: a.data ++ x.data := (take_pre 3 depToken).trans h
  have h6 : (depToken.take 3).length = 3 := by decide
  exact h3 (prefix_of_append_left h4 (by omega))

theorem countP_eq_one_of_split {α : Type} (p : α → Bool) (x y : List α) (d : α)
    (hx : ∀ s ∈ x, p s = false) (hd : p d = true) (hy : ∀ s ∈ y, p s = false) :
    (x ++ d :: y).countP p = 1 := by
  have h1 : x.countP p = 0 := List.countP_eq_zero.mpr (fun a ha => by simp [hx a ha])
  have h2 : y.countP p = 0 := List.countP_eq_zero.mpr (fun a ha => by simp [hy a ha])
  simp [List.countP_append, List.countP_cons, hd, h1, h2]

set_option maxHeartbeats 1000000 in
theorem mem_slurmCmd (pythonFile jobName outfile : String) (timeLimit : Int)
    (argList : List String) (deps : List Int) (exclusive : Bool) (s : String)
    (hs : s ∈ slurmCmd pythonFile jobName outfile timeLimit argList deps exclusive) :
    s = "sbatch" ∨ s = "--job-name=" ++ jobName ∨
    s = "--time=0-00:00:" ++ toString timeLimit ∨ s = "--cpus-per-task=1" ∨
    s = "--exclusive" ∨ s = "--ntasks=1" ∨ s = "--mem=" ++ toString SLURM_TEST_MEMORY ∨
    s = "--mem=" ++ toString (2000 : Int) ∨
    (deps ≠ [] ∧ s = "--dependency=afterany:" ++ dependencyStr deps) ∨
    s = "--constraint=" ++ SLURM_CONSTRAINT ∨ s = "--output" ∨ s = outfile ∨
    s = "--error" ∨ s = "-A" ∨ s = "PUT EXCLUSIVE GROUP HERE" ∨
    s = "--partition=PUT EXCLUSIVE PARTITION HERE" ∨ s = "PUT NON_EXCLUSIVE GROUP HERE" ∨
    s = "--partition=PUT NON_EXCLUSIVE PARTITION HERE" ∨ s = pythonFile ∨ s ∈ argList := by
  unfold slurmCmd at hs
  by_cases hd : deps.length > 0
  · have hde : deps ≠ [] := by
      cases deps with
      | nil => simp at hd
      | cons a l => simp
    cases exclusive <;> simp [hd, SLURM_TRAIN_MEMORY] at hs <;> tauto
  · cases exclusive <;> simp [hd, SLURM_TRAIN_MEMORY] at hs <;> tauto

/-- C4: with an empty (or None) dependency list the emitted scheduler command
carries no dependency clause at all; with a nonempty list h1..hk it carries
exactly one clause, the string afterany-prefixed with the ids colon-separated,
and the None and empty-list submissions coincide.  The hypotheses only rule
out caller-chosen strings that themselves spell a dependency clause. -/
theorem slurmCmd_dependency_clause (pythonFile jobName outfile : String) (timeLimit : Int)
    (argList : List String) (deps : List Int) (exclusive : Bool)
    (hout : ¬ depToken <+: outfile.data) (hpy : ¬ depToken <+: pythonFile.data)
    (hargs : ∀ a ∈ argList, ¬ depToken <+: a.data) :
    (deps = [] →
      ∀ s ∈ slurmCmd pythonFile jobName outfile timeLimit argList deps exclusive,
        ¬ depToken <+: s.data) ∧
    (deps ≠ [] →
      (slurmCmd pythonFile jobName outfile timeLimit argList deps exclusive).countP
        (fun s => decide (depToken <+: s.data)) = 1 ∧
      ("--dependency=afterany:" ++ dependencyStr deps) ∈
        slurmCmd pythonFile jobName outfile timeLimit argList deps exclusive ∧
      (dependencyStr deps).data = colonSeparated (deps.map (fun d => (toString d).data))) ∧
    (∀ fs, run_python_slurm_job fs pythonFile jobName outfile timeLimit argList none exclusive
      = run_python_slurm_job fs pythonFile jobName outfile timeLimit argList (some [])
          exclusive) := by
  have hdepcl : depToken <+: ("--dependency=afterany:" ++ dependencyStr deps).data := by
    have hstep : depToken <+: "--dependency=afterany:".data := by decide
    have hd2 : ("--dependency=afterany:" ++ dependencyStr deps).data
        = "--dependency=afterany:".data ++ (dependencyStr deps).data := rfl
    rw [hd2]
    exact hstep.trans (List.prefix_append _ _)
  refine ⟨?_, ?_, fun fs => rfl⟩
  · intro hdeps s hs
    have hmem := mem_slurmCmd pythonFile jobName outfile timeLimit argList deps exclusive s hs
    rcases hmem with rfl | rfl | rfl | rfl | rfl | rfl | rfl | rfl | ⟨hne, rfl⟩ | rfl | rfl |
      rfl | rfl | rfl | rfl | rfl | rfl | rfl | rfl | hin
    · decide
    · exact not_dep_concat _ _ (by decide) (by decide)
    · exact not_dep_concat _ _ (by decide) (by decide)
    · decide
    · decide
    · decide
    · decide
    · decide
    · exact absurd hdeps hne
    · decide
    · decide
    · exact hout
    · decide
    · decide
    · decide
    · decide
    · decide
    · decide
    · exact hpy
    · exact hargs s hin
  · intro hdeps
    have hlen : deps.length > 0 := by
      cases deps with
      | nil => exact absurd rfl hdeps
      | cons a l => simp
    cases exclusive
    · have hsplit : slurmCmd pythonFile jobName outfile timeLimit argList deps false =
        ["sbatch", "--job-name=" ++ jobName, "--time=0-00:00:" ++ toString timeLimit,
         "--cpus-per-task=1", "--ntasks=1", "--mem=" ++ toString (2000 : Int)] ++
        ("--dependency=afterany:" ++ dependencyStr deps) ::
        (["--constraint=" ++ SLURM_CONSTRAINT, "--output", outfile, "--error", outfile,
          "-A", "PUT NON_EXCLUSIVE GROUP HERE",
          "--partition=PUT NON_EXCLUSIVE PARTITION HERE", pythonFile] ++ argList) := by
        simp [slurmCmd, SLURM_TRAIN_MEMORY, hlen]
      refine ⟨?_, ?_, dependencyStr_colon deps⟩
      · rw [hsplit]
        refine countP_eq_one_of_split _ _ _ _ ?_ (decide_eq_true hdepcl) ?_
        · intro s hs
          simp only [List.mem_cons, List.not_mem_nil, or_false] at hs
          rcases hs with rfl | rfl | rfl | rfl | rfl | rfl
          · decide
          · exact decide_eq_false (not_dep_concat _ _ (by decide) (by decide))
          · exact decide_eq_false (not_dep_concat _ _ (by decide) (by decide))
          · decide
          · decide
          · decide
        · intro s hs
          rw [List.mem_append] at hs
          rcases hs with hs | hin
          · simp only [List.mem_cons, List.not_mem_nil, or_false] at hs
            rcases hs with rfl | rfl | rfl | rfl | rfl | rfl | rfl | rfl | rfl
            · decide
            · decide
            · exact decide_eq_false hout
            · decide
            · exact decide_eq_false hout
            · decide
            · decide
            · decide
            · exact decide_eq_false hpy
          · exact decide_eq_false (hargs s hin)
      · rw [hsplit]
        simp
    · have hsplit : slurmCmd pythonFile jobName outfile timeLimit argList deps true =
        ["sbatch", "--job-name=" ++ jobName, "--time=0-00:00:" ++ toString timeLimit,
         "--cpus-per-task=1", "--exclusive", "--mem=" ++ toString SLURM_TEST_MEMORY] ++
        ("--dependency=afterany:" ++ dependencyStr deps) ::
        (["--constraint=" ++ SLURM_CONSTRAINT, "--output", outfile, "--error", outfile,
          "-A", "PUT EXCLUSIVE GROUP HERE",
          "--partition=PUT EXCLUSIVE PARTITION HERE", pythonFile] ++ argList) := by
        simp [slurmCmd, hlen]
      refine ⟨?_, ?_, dependencyStr_colon deps⟩
      · rw [hsplit]
        refine countP_eq_one_of_split _ _ _ _ ?_ (decide_eq_true hdepcl) ?_
        · intro s hs
          simp only [List.mem_cons, List.not_mem_nil, or_false] at hs
          rcases hs with rfl | rfl | rfl | rfl | rfl | rfl
          · decide
          · exact decide_eq_false (not_dep_concat _ _ (by decide) (by decide))
          · exact decide_eq_false (not_dep_concat _ _ (by decide) (by decide))
          · decide
          · decide
          · decide
        · intro s hs
          rw [List.mem_append] at hs
          rcases hs with hs | hin
          · simp only [List.mem_cons, List.not_mem_nil, or_false] at hs
            rcases hs with rfl | rfl | rfl | rfl | rfl | rfl | rfl | rfl | rfl
            · decide
            · decide
            · exact decide_eq_false hout
            · decide
            · exact decide_eq_false hout
            · decide
            · decide
            · decide
            · exact decide_eq_false hpy
          · exact decide_eq_false (hargs s hin)
      · rw [hsplit]
        simp

theorem slurmCmd_dependency_clause_witness :
    (slurmCmd "a.py" "j" "o/x.out" 10 [] [7, 8] false).countP
      (fun s => decide (depToken <+: s.data)) = 1 ∧
    ("--dependency=afterany:" ++ dependencyStr [7, 8]) ∈
      slurmCmd "a.py" "j" "o/x.out" 10 [] [7, 8] false ∧
    (dependencyStr [7, 8]).data =
      colonSeparated ([7, 8].map (fun d => (toString d).data)) ∧
    ¬ depToken <+: "--ntasks=1".data := by
  have h1 := slurmCmd_dependency_clause "a.py" "j" "o/x.out" 10 [] [7, 8] false
    (by decide) (by decide) (by simp)
  have h2 := slurmCmd_dependency_clause "a.py" "j" "o/x.out" 10 [] [] false
    (by decide) (by decide) (by simp)
  obtain ⟨hc1, hc2, hc3⟩ := h1.2.1 (by decide)
  exact ⟨hc1, hc2, hc3, h2.1 rfl "--ntasks=1" (by decide)⟩

/-! ## C8: acknowledgment parsing -/

theorem splitChar_ne_nil (sep : Char) (l : List Char) : splitChar sep l ≠ [] := by
  cases l with
  | nil => simp [splitChar]
  | cons c cs =>
    rw [splitChar]
    match h : splitChar sep cs with
    | [] => simp
    | hh :: t => by_cases hc : c = sep <;> simp [hc]

theorem splitChar_no_sep (sep : Char) (l : List Char) (h : sep ∉ l) :
    splitChar sep l = [l] := by
  induction l with
  | nil => rfl
  | cons c cs ih =>
    have hcs : sep ∉ cs := fun hx => h (List.mem_cons_of_mem c hx)
    have hc : ¬ c = sep := fun hx => h (hx ▸ List.mem_cons_self c cs)
    rw [splitChar, ih hcs]
    simp [hc]

theorem splitChar_two_of_mem (sep : Char) (l : List Char) (h : sep ∈ l) :
    2 ≤ (splitChar sep l).length := by
  induction l with
  | nil => exact absurd h (List.not_mem_nil sep)
  | cons c cs ih =>
    rw [splitChar]
    match hs : splitChar sep cs with
    | [] => exact absurd hs (splitChar_ne_nil sep cs)
    | hh :: t =>
      by_cases hc : c = sep
      · simp [hc]
      · have hmem : sep ∈ cs := by
          rcases List.mem_cons.mp h with h1 | h1
          · exact absurd h1.symm hc
          · exact h1
        have := ih hmem
        rw [hs] at this
        simp only [hc, if_false]
        simp at this ⊢
        omega

theorem getLastD_irrel {α : Type} (t : List α) (a b : α) (h : t ≠ []) :
    t.getLastD a = t.getLastD b := by
  cases t with
  | nil => exact absurd rfl h
  | cons x xs => rfl

theorem splitChar_append_sep (sep : Char) (X Y : List Char) (hX : sep ∉ X) :
    splitChar sep (X ++ sep :: Y) = X :: splitChar sep Y := by
  induction X with
  | nil =>
    rw [List.nil_append, splitChar]
    match hs : splitChar sep Y with
    | [] => exact absurd hs (splitChar_ne_nil sep Y)
    | hh :: t => simp
  | cons x X2 ih =>
    have hX2 : sep ∉ X2 := fun hx => hX (List.mem_cons_of_mem x hx)
    have hx : ¬ x = sep := fun hx2 => hX (hx2 ▸ List.mem_cons_self x X2)
    rw [List.cons_append, splitChar, ih hX2]
    simp [hx]

theorem lastField_append_sep (sep : Char) (X Y : List Char) (hY : sep ∉ Y) :
    (splitChar sep (X ++ sep :: Y)).getLastD [] = Y := by
  induction X with
  | nil =>
    rw [List.nil_append, splitChar]
    rw [splitChar_no_sep sep Y hY]
    simp [List.getLastD_cons]
  | cons x X2 ih =>
    rw [List.cons_append, splitChar]
    match hs : splitChar sep (X2 ++ sep :: Y) with
    | [] => exact absurd hs (splitChar_ne_nil sep _)
    | hh :: t =>
      have hlen : 2 ≤ (splitChar sep (X2 ++ sep :: Y)).length := by
        refine splitChar_two_of_mem sep _ ?_
        exact List.mem_append_right X2 (List.mem_cons_self sep Y)
      rw [hs] at hlen
      have ht : t ≠ [] := by
        intro hx
        rw [hx] at hlen
        simp at hlen
      have hrec : (hh :: t).getLastD [] = Y := by rw [← hs]; exact ih
      rw [List.getLastD_cons] at hrec
      by_cases hx : x = sep
      · simp only [hx, if_true, eq_self_iff_true]
        rw [List.getLastD_cons, List.getLastD_cons]
        exact hrec
      · simp only [hx, if_false]
        rw [List.getLastD_cons, getLastD_irrel t (x :: hh) hh ht]
        exact hrec

theorem containsSub_eq_true (sub l : List Char) :
    containsSub sub l = true ↔ sub <:+: l := by
  induction l with
  | nil =>
    rw [containsSub]
    constructor
    · intro h
      have hsub : sub = [] := by
        cases sub with
        | nil => rfl
        | cons a t => simp at h
      rw [hsub]
    · intro h
      have hsub : sub = [] := List.eq_nil_of_infix_nil h
      rw [hsub]
      rfl
  | cons c cs ih =>
    rw [containsSub]
    constructor
    · intro h
      rcases Bool.or_eq_true_iff.mp h with h1 | h1
      · exact (List.isPrefixOf_iff_prefix.mp h1).isInfix
      · exact List.infix_cons (ih.mp h1)
    · intro h
      rcases List.infix_cons_iff.mp h with h1 | h1
      · exact Bool.or_eq_true_iff.mpr (Or.inl (List.isPrefixOf_iff_prefix.mpr h1))
      · exact Bool.or_eq_true_iff.mpr (Or.inr (ih.mpr h1))

theorem natDigitsAux_digits :
    ∀ (l : List Char) (acc n : Nat), natDigitsAux l acc = some n →
      ∀ c ∈ l, c.isDigit = true := by
  intro l
  induction l with
  | nil => intro acc n _ c hc; exact absurd hc (List.not_mem_nil c)
  | cons a t ih =>
    intro acc n h c hc
    rw [natDigitsAux] at h
    by_cases hd : a.isDigit = true
    · rw [hd] at h
      simp at h
      rcases List.mem_cons.mp hc with rfl | hmem
      · exact hd
      · exact ih _ n h c hmem
    · rw [Bool.not_eq_true] at hd
      rw [hd] at h
      simp at h

theorem natDigits_digits (l : List Char) (n : Nat) (h : natDigits l = some n) :
    ∀ c ∈ l, c.isDigit = true := by
  cases l with
  | nil => intro c hc; exact absurd hc (List.not_mem_nil c)
  | cons a t => exact natDigitsAux_digits (a :: t) 0 n h

theorem pyInt_chars (l : List Char) (k : Int) (h : pyIntOfChars l = some k) :
    ∀ c ∈ l, (c.isDigit = true ∨ c = '-' ∨ c = '+') := by
  intro c hc
  cases l with
  | nil => exact absurd hc (List.not_mem_nil c)
  | cons a rest =>
    rw [pyIntOfChars] at h
    by_cases hm : a = '-'
    · rw [if_pos hm] at h
      rcases Option.map_eq_some'.mp h with ⟨n, hn, _⟩
      rcases List.mem_cons.mp hc with rfl | hmem
      · exact Or.inr (Or.inl hm)
      · exact Or.inl (natDigits_digits rest n hn c hmem)
    · rw [if_neg hm] at h
      by_cases hp : a = '+'
      · rw [if_pos hp] at h
        rcases Option.map_eq_some'.mp h with ⟨n, hn, _⟩
        rcases List.mem_cons.mp hc with rfl | hmem
        · exact Or.inr (Or.inr hp)
        · exact Or.inl (natDigits_digits rest n hn c hmem)
      · rw [if_neg hp] at h
        rcases Option.map_eq_some'.mp h with ⟨n, hn, _⟩
        exact Or.inl (natDigits_digits (a :: rest) n hn c hc)

theorem append_singleton_inj {l1 l2 : List Char} {a b : Char}
    (h : l1 ++ [a] = l2 ++ [b]) : l1 = l2 ∧ a = b := by
  have h2 := congrArg List.reverse h
  simp only [List.reverse_append, List.reverse_cons, List.reverse_nil, List.nil_append,
    List.singleton_append] at h2
  injection h2 with hab hl
  exact ⟨List.reverse_inj.mp hl, hab⟩

theorem job_line_data (raw : String) :
    (job_line_of raw).data = 'b' :: quoteChar :: (raw.data ++ [quoteChar]) := rfl

/-- Stripping the bytes-repr wrapper: a token occurrence inside the b-quoted
job line, for a token that starts with an uppercase letter and contains no
quote, is an occurrence inside the raw line. -/
theorem token_through_wrapper (raw : String)
    (h : submittedToken <:+: (job_line_of raw).data) : submittedToken <:+: raw.data := by
  rw [job_line_data] at h
  obtain ⟨u, v, huv⟩ := h
  rcases u with _ | ⟨x, u1⟩
  · rw [show submittedToken = 'S' :: "ubmitted batch job".data from rfl] at huv
    simp only [List.nil_append, List.cons_append] at huv
    injection huv with h1 _
    exact absurd h1 (by decide)
  · rcases u1 with _ | ⟨y, u2⟩
    · rw [show submittedToken = 'S' :: "ubmitted batch job".data from rfl] at huv
      simp only [List.cons_append, List.nil_append, List.singleton_append] at huv
      injection huv with h1 h2
      injection h2 with h3 _
      exact absurd h3 (by decide)
    · simp only [List.cons_append] at huv
      injection huv with h1 h2
      injection h2 with h3 h4
      rcases List.eq_nil_or_concat' v with rfl | ⟨v2, a, rfl⟩
      · rw [List.append_nil] at h4
        have hlast := congrArg List.getLast? h4
        rw [List.getLast?_concat] at hlast
        rw [List.getLast?_append_of_ne_nil u2 (by decide : submittedToken ≠ [])] at hlast
        have hb : submittedToken.getLast? = some 'b' := by decide
        rw [hb] at hlast
        exact absurd (Option.some.inj hlast) (by decide)
      · have h5 : raw.data ++ [quoteChar] = (u2 ++ submittedToken ++ v2) ++ [a] := by
          rw [← h4]; simp [List.append_assoc]
        obtain ⟨h6, _⟩ := append_singleton_inj h5
        exact ⟨u2, v2, h6.symm⟩

/-- C8: if the first output line does not contain the token
"Submitted batch job" the parse fails with the assertion error, and otherwise
(for an acknowledgment line of the shape token-carrying text, a space, and a
final whitespace-separated numeral field) the returned job handle is exactly
the decimal integer parsed from that final field. -/
theorem parse_job_ack_spec :
    (∀ raw : String, containsSub submittedToken raw.data = false →
      parse_job_ack raw = .error .ackAssertFailed) ∧
    (∀ (w ds : String) (k : Int), containsSub submittedToken w.data = true →
      pyIntOfChars ds.data = some k →
      parse_job_ack (w ++ " " ++ ds) = .ok k) := by
  constructor
  · intro raw h
    have hc : containsSub submittedToken (job_line_of raw).data = false := by
      by_contra hcc
      rw [Bool.not_eq_false] at hcc
      have hinf := token_through_wrapper raw ((containsSub_eq_true _ _).mp hcc)
      have h2 := (containsSub_eq_true _ _).mpr hinf
      rw [h] at h2
      exact Bool.false_ne_true h2
    simp [parse_job_ack, hc]
  · intro w ds k hw hds
    have hshape : (job_line_of (w ++ " " ++ ds)).data =
        ('b' :: quoteChar :: w.data) ++ ' ' :: (ds.data ++ [quoteChar]) := by
      rw [job_line_data]
      simp [List.append_assoc]
    have hchars := pyInt_chars ds.data k hds
    have hsp : ' ' ∉ ds.data := by
      intro hmem
      rcases hchars ' ' hmem with h | h | h
      · exact absurd h (by decide)
      · exact absurd h (by decide)
      · exact absurd h (by decide)
    have hq : quoteChar ∉ ds.data := by
      intro hmem
      rcases hchars quoteChar hmem with h | h | h
      · exact absurd h (by decide)
      · exact absurd h (by decide)
      · exact absurd h (by decide)
    have hspY : ' ' ∉ ds.data ++ [quoteChar] := by
      intro hmem
      rcases List.mem_append.mp hmem with h | h
      · exact hsp h
      · rw [List.mem_singleton] at h
        exact absurd h (by decide)
    have hcond : containsSub submittedToken (job_line_of (w ++ " " ++ ds)).data = true := by
      refine (containsSub_eq_true _ _).mpr ?_
      have h1 : submittedToken <:+: w.data := (containsSub_eq_true _ _).mp hw
      rw [hshape]
      have h2 : w.data <:+: ('b' :: quoteChar :: w.data) ++ ' ' :: (ds.data ++ [quoteChar]) :=
        ⟨['b', quoteChar], ' ' :: (ds.data ++ [quoteChar]), by simp⟩
      exact h1.trans h2
    have hlast : (splitChar ' ' (job_line_of (w ++ " " ++ ds)).data).getLastD [] =
        ds.data ++ [quoteChar] := by
      rw [hshape]
      exact lastField_append_sep ' ' _ _ hspY
    have hqsplit := splitChar_append_sep quoteChar ds.data [] hq
    simp only [parse_job_ack, hcond, if_true]
    rw [hlast, hqsplit]
    simp [hds]

theorem parse_job_ack_spec_witness :
    parse_job_ack "some error line" = .error .ackAssertFailed ∧
    parse_job_ack ("Submitted batch job" ++ " " ++ "12345") = .ok 12345 :=
  ⟨parse_job_ack_spec.1 "some error line" (by decide),
   parse_job_ack_spec.2 "Submitted batch job" "12345" 12345 (by decide) (by decide)⟩
